import Mathlib

/-!
Verification development for the fast/template xtask tool
(`xtask/src/main.rs` and `xtask/src/bootstrap.rs`).

Strings are modelled as `List Char`.  Each Rust function relevant to the
claims is embedded as an executable Lean definition; file-system state is
passed explicitly.
-/

/-- Unicode White_Space characters: the set recognised by Rust
`char::is_whitespace`, hence the characters removed by `str::trim`. -/
def wsChars : List Char :=
  [' ', '\t', '\n', '\u000B', '\u000C', '\r', '\u0085', ' ', ' ',
   ' ', ' ', ' ', ' ', ' ', ' ', ' ',
   ' ', ' ', ' ', ' ', ' ', ' ', ' ',
   ' ', '　']

/-- Rust `char::is_whitespace`. -/
def isWs (c : Char) : Bool := wsChars.contains c

/-- Removal of leading whitespace, as in Rust `str::trim_start`. -/
def trimStartL (s : List Char) : List Char := s.dropWhile isWs

/-- Removal of trailing whitespace, as in Rust `str::trim_end`. -/
def trimEndL : List Char → List Char
  | [] => []
  | c :: rest =>
    match trimEndL rest with
    | [] => if isWs c then [] else [c]
    | x :: xs => c :: x :: xs

/-- Rust `str::trim`: remove leading and trailing whitespace. -/
def rustTrim (s : List Char) : List Char := trimEndL (trimStartL s)

/-- Rust `char::is_ascii_digit`. -/
def isAsciiDigitC (c : Char) : Bool := decide (48 ≤ c.toNat ∧ c.toNat ≤ 57)

/-- Rust `char::is_ascii_alphabetic`. -/
def isAsciiAlphaC (c : Char) : Bool :=
  decide ((65 ≤ c.toNat ∧ c.toNat ≤ 90) ∨ (97 ≤ c.toNat ∧ c.toNat ≤ 122))

/-- Rust `char::is_ascii_alphanumeric`. -/
def isAsciiAlphanumC (c : Char) : Bool := isAsciiAlphaC c || isAsciiDigitC c

/-- Error cases of `parse_project_name` (`main.rs:238` / `bootstrap.rs:130`).
Each constructor stands for one of the distinct error message strings the
Rust code builds with `format!`. -/
inductive NameErr
  | emptyName
  | startsWithDigit (c : Char)
  | badFirstChar (c : Char)
  | invalidChar (c : Char)
  deriving DecidableEq

/-- Test used inside the `for ch in chars` loop of `parse_project_name`:
`true` exactly when the character is rejected. -/
def badSubChar (c : Char) : Bool := !(isAsciiAlphanumC c || c == '-' || c == '_')

/-- Body of `parse_project_name` after `name.trim()`: the emptiness check,
the first-character checks, and the loop over the remaining characters
(the loop reports the first offending character, i.e. `List.find?`). -/
def parseTrimmed : List Char → Except NameErr (List Char)
  | [] => Except.error NameErr.emptyName
  | c :: rest =>
    if isAsciiDigitC c then Except.error (NameErr.startsWithDigit c)
    else if !(isAsciiAlphaC c || c == '_') then Except.error (NameErr.badFirstChar c)
    else
      match rest.find? badSubChar with
      | some x => Except.error (NameErr.invalidChar x)
      | none => Except.ok (c :: rest)

/-- `parse_project_name` (`main.rs:238-268`, identical in `bootstrap.rs:130-160`). -/
def parse_project_name (s : List Char) : Except NameErr (List Char) :=
  parseTrimmed (rustTrim s)

/-- `parse_github_account` (`main.rs:270-276`; `parse_github_username` in
`bootstrap.rs:162-168`): trim, reject empty, otherwise accept. -/
def parse_github_account (s : List Char) : Except (List Char) (List Char) :=
  let a := rustTrim s
  if a.isEmpty then Except.error "GitHub account name cannot be empty".data
  else Except.ok a

/-- Spec-side predicate, written from the specification text: the trimmed
name matches `[A-Za-z_][A-Za-z0-9_-]*` (non-empty, first character an ASCII
letter or underscore, remaining characters ASCII alphanumeric, hyphen or
underscore). -/
def validProjectNameSpec : List Char → Bool
  | [] => false
  | c :: rest =>
    (isAsciiAlphaC c || c == '_') &&
      rest.all (fun x => isAsciiAlphanumC x || x == '-' || x == '_')

/-- Success test for `Except`. -/
def isOkE {ε α : Type} : Except ε α → Bool
  | Except.ok _ => true
  | Except.error _ => false

-- Basic lemmas about trimming

theorem dropWhile_isWs_idem (l : List Char) :
    (l.dropWhile isWs).dropWhile isWs = l.dropWhile isWs := by
  induction l with
  | nil => rfl
  | cons c t ih =>
    by_cases h : isWs c
    · simp [List.dropWhile_cons, h, ih]
    · simp [List.dropWhile_cons, h]

theorem dropWhile_isWs_head {s : List Char} {c : Char} {r : List Char}
    (h : s.dropWhile isWs = c :: r) : isWs c = false := by
  induction s with
  | nil => simp at h
  | cons a t ih =>
    by_cases ha : isWs a
    · simp [List.dropWhile_cons, ha] at h
      exact ih h
    · simp [List.dropWhile_cons, ha] at h
      simp [← h.1, ha]

theorem trimEndL_shape (c : Char) (rest : List Char) :
    trimEndL (c :: rest) = [] ∨ ∃ t, trimEndL (c :: rest) = c :: t := by
  simp only [trimEndL]
  cases h : trimEndL rest with
  | nil =>
    by_cases hw : isWs c
    · left; simp [hw]
    · right; exact ⟨[], by simp [hw]⟩
  | cons x xs => right; exact ⟨x :: xs, rfl⟩

theorem trimEndL_idem (l : List Char) : trimEndL (trimEndL l) = trimEndL l := by
  induction l with
  | nil => rfl
  | cons c rest ih =>
    simp only [trimEndL]
    cases h : trimEndL rest with
    | nil =>
      by_cases hw : isWs c
      · simp [hw, trimEndL]
      · simp [hw, trimEndL]
    | cons x xs =>
      have ih' : trimEndL (x :: xs) = x :: xs := by rw [← h, ih, h]
      simp only [trimEndL] at ih' ⊢
      cases h2 : trimEndL xs with
      | nil =>
        rw [h2] at ih'
        by_cases hx : isWs x
        · simp [hx] at ih'
        · simp [hx] at ih' ⊢
          exact ih'
      | cons y ys =>
        rw [h2] at ih'
        rw [ih']

theorem trimStartL_trimEndL (s : List Char) :
    trimStartL (trimEndL (trimStartL s)) = trimEndL (trimStartL s) := by
  cases h : trimStartL s with
  | nil => simp [trimEndL, trimStartL]
  | cons c r =>
    have hc : isWs c = false := dropWhile_isWs_head h
    rcases trimEndL_shape c r with h2 | ⟨t, h2⟩
    · simp [h2, trimStartL]
    · simp [h2, trimStartL, List.dropWhile_cons, hc]

theorem rustTrim_idem (s : List Char) : rustTrim (rustTrim s) = rustTrim s := by
  unfold rustTrim
  rw [trimStartL_trimEndL, trimEndL_idem]

-- Lemmas about the name validator

theorem digit_not_first (c : Char) (h : isAsciiDigitC c = true) :
    (isAsciiAlphaC c || c == '_') = false := by
  simp only [isAsciiDigitC, decide_eq_true_eq] at h
  simp only [isAsciiAlphaC, Bool.or_eq_false_iff, decide_eq_false_iff_not, beq_eq_false_iff_ne,
    ne_eq]
  constructor
  · intro hc
    omega
  · intro hc
    subst hc
    simp at h

theorem parseTrimmed_ok_eq (t r : List Char) (h : parseTrimmed t = Except.ok r) : r = t := by
  cases t with
  | nil => simp [parseTrimmed] at h
  | cons c rest =>
    simp only [parseTrimmed] at h
    by_cases h1 : isAsciiDigitC c
    · simp [h1] at h
    · simp only [h1, if_false, Bool.false_eq_true] at h
      by_cases h2 : (isAsciiAlphaC c || c == '_') = true
      · simp only [h2, Bool.not_true, Bool.false_eq_true, if_false] at h
        cases h3 : rest.find? badSubChar with
        | some x => rw [h3] at h; simp at h
        | none => rw [h3] at h; simp at h; exact h.symm
      · simp only [Bool.not_eq_true] at h2
        simp [h2] at h

theorem parseTrimmed_isOk (t : List Char) :
    isOkE (parseTrimmed t) = validProjectNameSpec t := by
  cases t with
  | nil => rfl
  | cons c rest =>
    simp only [parseTrimmed, validProjectNameSpec]
    by_cases h1 : isAsciiDigitC c
    · simp [h1, isOkE, digit_not_first c h1]
    · simp only [h1, Bool.false_eq_true, if_false]
      by_cases h2 : (isAsciiAlphaC c || c == '_') = true
      · simp only [h2, Bool.not_true, Bool.false_eq_true, if_false, Bool.true_and]
        cases h3 : rest.find? badSubChar with
        | some x =>
          have hbad : badSubChar x = true := List.find?_some h3
          have hmem : x ∈ rest := List.mem_of_find?_eq_some h3
          have hgx : (isAsciiAlphanumC x || x == '-' || x == '_') = false := by
            cases hq : (isAsciiAlphanumC x || x == '-' || x == '_') with
            | false => rfl
            | true => simp [badSubChar, hq] at hbad
          have hall : rest.all (fun y => isAsciiAlphanumC y || y == '-' || y == '_') = false := by
            cases hA : rest.all (fun y => isAsciiAlphanumC y || y == '-' || y == '_') with
            | false => rfl
            | true =>
              have hx := List.all_eq_true.mp hA x hmem
              simp only [hgx] at hx
              exact hx.symm
          simp [isOkE, hall]
        | none =>
          have hall : ∀ x ∈ rest, ¬ badSubChar x = true := by
            intro x hx
            exact List.find?_eq_none.mp h3 x hx
          simp only [isOkE]
          symm
          simp only [List.all_eq_true]
          intro x hx
          cases hq : (isAsciiAlphanumC x || x == '-' || x == '_') with
          | true => rfl
          | false =>
            exact absurd (by simp [badSubChar, hq]) (hall x hx)
      · simp only [Bool.not_eq_true] at h2
        simp [h2, isOkE]

theorem parse_project_name_ok (s r : List Char) (h : parse_project_name s = Except.ok r) :
    r = rustTrim s ∧ r ≠ [] := by
  unfold parse_project_name at h
  have hr : r = rustTrim s := parseTrimmed_ok_eq _ _ h
  refine ⟨hr, ?_⟩
  intro hnil
  rw [hr] at hnil
  rw [hnil] at h
  simp [parseTrimmed] at h

theorem parse_github_account_ok (s r : List Char) (h : parse_github_account s = Except.ok r) :
    r = rustTrim s ∧ r ≠ [] := by
  unfold parse_github_account at h
  by_cases he : (rustTrim s).isEmpty
  · simp [he] at h
  · simp only [he, Bool.false_eq_true, if_false, Except.ok.injEq] at h
    refine ⟨h.symm, ?_⟩
    intro hnil
    rw [← h] at hnil
    rw [hnil] at he
    simp at he

-- File substitution engine (`replace_in_file`, main.rs:389-398 / bootstrap.rs:192-202)

/-- Test whether the first list is an initial segment of the second
(Rust pattern matching at the current position). -/
def isPreOf : List Char → List Char → Bool
  | [], _ => true
  | _ :: _, [] => false
  | a :: as, b :: bs => (a == b) && isPreOf as bs

/-- Rust `str::contains` with a literal pattern: `strContains s pat` is
true when `pat` occurs as a contiguous substring of `s` (the empty
pattern occurs in every string). -/
def strContains : List Char → List Char → Bool
  | [], pat => pat.isEmpty
  | c :: rest, pat => isPreOf pat (c :: rest) || strContains rest pat

/-- Fuel-driven core of Rust `str::replace`: scan left to right, at each
position replace a match of `old` by `new` and continue after it
(non-overlapping), otherwise keep the character.  The fuel only bounds
the recursion; `rustReplace` supplies fuel `s.length`, which is enough
because every step consumes at least one character. -/
def replaceFuel (old new : List Char) : Nat → List Char → List Char
  | _, [] => []
  | 0, c :: rest => c :: rest
  | fuel + 1, c :: rest =>
    if isPreOf old (c :: rest) then
      new ++ replaceFuel old new fuel (rest.drop (old.length - 1))
    else c :: replaceFuel old new fuel rest

/-- Rust `str::replace` with literal patterns.  For the empty pattern,
`match_indices` yields a match at every character boundary, so `new` is
interleaved before, between and after all characters. -/
def rustReplace (s old new : List Char) : List Char :=
  if old.isEmpty then new ++ s.foldr (fun c acc => c :: (new ++ acc)) []
  else replaceFuel old new s.length s

/-- Result of one `replace_in_file` call: the returned `Result`, the file
content afterwards, and whether a write was performed. -/
structure FileOp where
  res : Except (List Char) Unit
  content : Option (List Char)
  wrote : Bool

/-- Error message standing for whatever `io::Error` the failed read produced. -/
def readErrMsg : List Char := "read error".data

/-- `replace_in_file` (main.rs:389-398, identically bootstrap.rs:192-202):
read the file (`none` models a failing read), return `Ok` without writing
when `old` does not occur, otherwise write back the full replaced content. -/
def replace_in_file (file : Option (List Char)) (old new : List Char) : FileOp :=
  match file with
  | none => ⟨Except.error readErrMsg, none, false⟩
  | some content =>
    if strContains content old = false then ⟨Except.ok (), some content, false⟩
    else ⟨Except.ok (), some (rustReplace content old new), true⟩

theorem strContains_nil_pat (s : List Char) : strContains s [] = true := by
  cases s with
  | nil => rfl
  | cons c rest => simp [strContains, isPreOf]

theorem replaceFuel_of_not_contains (old new : List Char) (fuel : Nat) (s : List Char)
    (h : strContains s old = false) : replaceFuel old new fuel s = s := by
  induction fuel generalizing s with
  | zero => cases s with
    | nil => rfl
    | cons c rest => rfl
  | succ n ih =>
    cases s with
    | nil => rfl
    | cons c rest =>
      simp only [strContains, Bool.or_eq_false_iff] at h
      simp only [replaceFuel, h.1, Bool.false_eq_true, if_false]
      rw [ih rest h.2]

theorem rustReplace_of_not_contains (s old new : List Char)
    (h : strContains s old = false) : rustReplace s old new = s := by
  cases old with
  | nil => rw [strContains_nil_pat] at h; simp at h
  | cons o os =>
    unfold rustReplace
    simp only [List.isEmpty_cons, Bool.false_eq_true, if_false]
    exact replaceFuel_of_not_contains _ _ _ _ h

-- Fixed names and placeholder literals

def templateName : List Char := "template".data

def xtaskName : List Char := "xtask".data

def slashFast : List Char := "/fast".data

def slashTemplate : List Char := "/template".data

def semanticPat : List Char := "/fast/template".data

-- Workspace state

/-- Contents of the files touched by bootstrap (`none` models a file that
is absent or whose read fails) plus the directory entries of the
workspace root. -/
structure Fs where
  rootCargoToml : Option (List Char)
  templateCargoToml : Option (List Char)
  readme : Option (List Char)
  semanticYml : Option (List Char)
  cargoLock : Option (List Char)
  dirs : List (List Char)
  deriving DecidableEq

/-- `check_project_root` (main.rs:278-289): `Path::exists` on `Cargo.toml`
is modelled as the content being readable, and `Path::is_dir` as
membership in the root directory entries. -/
def check_project_root (fs : Fs) : Except (List Char) Unit :=
  if fs.rootCargoToml = none ∨ xtaskName ∉ fs.dirs then
    Except.error "This command must be run from the project root directory".data
  else if templateName ∉ fs.dirs then
    Except.error "The template directory not found".data
  else Except.ok ()

/-- Model of `std::fs::rename` on the workspace root directory entries, as
called by `update_project_dir` (main.rs:453-461): fails when the source is
missing; renaming onto an existing distinct entry fails without deleting
anything (the behaviour §4.4 of the spec prescribes for the rename step);
renaming an entry onto itself succeeds and changes nothing. -/
def fsRename (dirs : List (List Char)) (src dst : List Char) :
    Except (List Char) Unit × List (List Char) :=
  if src ∈ dirs then
    if dst = src then (Except.ok (), dirs)
    else if dst ∈ dirs then (Except.error "target already exists".data, dirs)
    else (Except.ok (), dst :: dirs.erase src)
  else (Except.error "no such file or directory".data, dirs)

/-- Error message of `update_project_dir` in bootstrap.rs when the target
directory already exists (quotes of the original message elided). -/
def errDirExists (pn : List Char) : List Char :=
  "Directory ".data ++ pn ++ " already exists".data

/-- `update_project_dir` (bootstrap.rs:265-277): refuse with a
named-collision error when the target path exists, otherwise delegate to
`std::fs::rename`. -/
def bsUpdateProjectDir (dirs : List (List Char)) (pn : List Char) :
    Except (List Char) Unit × List (List Char) :=
  if pn ∈ dirs then (Except.error (errDirExists pn), dirs)
  else fsRename dirs templateName pn

-- Bootstrap steps (main.rs:411-461)

/-- `update_root_cargo_toml` (main.rs:411-418): replace `/fast` by
`/{github_account}`, then (`and_then`) replace `template` by the project
name in the same file. -/
def update_root_cargo_toml (c : Option (List Char)) (pn ga : List Char) :
    Except (List Char) Unit × Option (List Char) :=
  let f1 := replace_in_file c slashFast ('/' :: ga)
  match f1.res with
  | Except.error e => (Except.error e, f1.content)
  | Except.ok _ =>
    let f2 := replace_in_file f1.content templateName pn
    (f2.res, f2.content)

/-- `update_readme` (main.rs:427-433): replace `/fast` by
`/{github_account}`, then replace `/template` by `/{project_name}`. -/
def update_readme (c : Option (List Char)) (pn ga : List Char) :
    Except (List Char) Unit × Option (List Char) :=
  let f1 := replace_in_file c slashFast ('/' :: ga)
  match f1.res with
  | Except.error e => (Except.error e, f1.content)
  | Except.ok _ =>
    let f2 := replace_in_file f1.content slashTemplate ('/' :: pn)
    (f2.res, f2.content)

-- Task labels printed by print_task (formatting dots elided)

def labelRoot : List Char := "Updating Cargo.toml...".data

def labelTemplateToml : List Char := "Updating template/Cargo.toml...".data

def labelReadme : List Char := "Updating README.md...".data

def labelSemantic : List Char := "Updating .github/semantic.yml...".data

def labelLock : List Char := "Updating Cargo.lock...".data

def labelRename (pn : List Char) : List Char :=
  "Renaming template/ directory to ".data ++ pn ++ "/ ...".data

/-- `execute_bootstrap` (main.rs:355-362): the six steps in their fixed
order; each yields a `(label, result)` line (printed OK/ERROR by
`print_update_result`) and its effect on the workspace.  No step's result
influences whether the following steps run. -/
def execute_bootstrap (fs : Fs) (pn ga : List Char) :
    List (List Char × Except (List Char) Unit) × Fs :=
  let s1 := update_root_cargo_toml fs.rootCargoToml pn ga
  let s2 := replace_in_file fs.templateCargoToml templateName pn
  let s3 := update_readme fs.readme pn ga
  let s4 := replace_in_file fs.semanticYml semanticPat ('/' :: (ga ++ '/' :: pn))
  let s5 := replace_in_file fs.cargoLock templateName pn
  let s6 := fsRename fs.dirs templateName pn
  ([(labelRoot, s1.1), (labelTemplateToml, s2.res), (labelReadme, s3.1),
    (labelSemantic, s4.res), (labelLock, s5.res), (labelRename pn, s6.1)],
   { rootCargoToml := s1.2, templateCargoToml := s2.content, readme := s3.2,
     semanticYml := s4.content, cargoLock := s5.content, dirs := s6.2 })

-- Interactive flow (main.rs:291-353)

/-- `get_valid_input` (main.rs:299-310) driven by a finite list of stdin
lines; `prompt_input` trims each line before the validator sees it.
`none` means no line satisfies the validator, in which case the real loop
never returns. -/
def getValidInput {e : Type} (validator : List Char → Except e (List Char)) :
    List (List Char) → Option (List Char × List (List Char))
  | [] => none
  | line :: rest =>
    match validator (rustTrim line) with
    | Except.ok v => some (v, rest)
    | Except.error _ => getValidInput validator rest

/-- `prepare_inputs` (main.rs:328-337): take each value from the CLI flag
when present, otherwise prompt for it, consuming stdin lines. -/
def prepare_inputs (pnOpt gaOpt : Option (List Char)) (stdin : List (List Char)) :
    Option (List Char × List Char × List (List Char)) :=
  match pnOpt with
  | some pn =>
    match gaOpt with
    | some ga => some (pn, ga, stdin)
    | none =>
      match getValidInput parse_github_account stdin with
      | none => none
      | some (ga, rest) => some (pn, ga, rest)
  | none =>
    match getValidInput parse_project_name stdin with
    | none => none
    | some (pn, rest) =>
      match gaOpt with
      | some ga => some (pn, ga, rest)
      | none =>
        match getValidInput parse_github_account rest with
        | none => none
        | some (ga, rest2) => some (pn, ga, rest2)

/-- ASCII lowering; on the characters ever compared against "y"/"yes"
this agrees with Rust `str::to_lowercase`. -/
def toLowerAscii (c : Char) : Char :=
  if 65 ≤ c.toNat ∧ c.toNat ≤ 90 then Char.ofNat (c.toNat + 32) else c

/-- `confirm` (main.rs:380-387) on one stdin line (an exhausted stdin
reads as the empty line): trim, lowercase, compare with y / yes. -/
def isYes (line : List Char) : Bool :=
  let t := (rustTrim line).map toLowerAscii
  t == "y".data || t == "yes".data

/-- Console output of one bootstrap run (prompt texts and validator
re-prompt errors are not recorded). -/
inductive Event
  | errorMsg (msg : List Char)
  | title
  | preview
  | starting
  | cancelled
  | task (label : List Char) (ok : Bool)
  | complete
  deriving DecidableEq

/-- `bootstrap_project` (main.rs:312-326): precondition check, title,
input collection, preview plus confirmation, then the six steps and the
completion banner.  Returns `none` when the input loop never terminates. -/
def bootstrap_project (fs : Fs) (pnOpt gaOpt : Option (List Char))
    (stdin : List (List Char)) : Option (List Event × Fs) :=
  match check_project_root fs with
  | Except.error e => some ([Event.errorMsg e], fs)
  | Except.ok _ =>
    match prepare_inputs pnOpt gaOpt stdin with
    | none => none
    | some (pn, ga, rest) =>
      if isYes ((rest.head?).getD []) then
        let r := execute_bootstrap fs pn ga
        some ([Event.title, Event.preview, Event.starting] ++
              r.1.map (fun p => Event.task p.1 (isOkE p.2)) ++ [Event.complete], r.2)
      else some ([Event.title, Event.preview, Event.cancelled], fs)

-- Lint subcommand (`CommandLint::run`, main.rs:109-117; `run_command`, main.rs:140-144)

/-- The five external checks run by the lint subcommand. -/
inductive LintCheck
  | clippy
  | fmt
  | taplo
  | typos
  | hawkeye
  deriving DecidableEq

/-- Order in which `CommandLint::run` issues the checks. -/
def lintChecks : List LintCheck := [LintCheck.clippy, LintCheck.fmt, LintCheck.taplo,
  LintCheck.typos, LintCheck.hawkeye]

/-- Sequential execution through `run_command`, which asserts on the exit
status: a non-zero exit (modelled by `exitOk c = false`) panics, so the
remaining commands never run.  Returns the checks that were executed and
whether the whole run succeeded. -/
def runSeq (exitOk : LintCheck → Bool) : List LintCheck → List LintCheck × Bool
  | [] => ([], true)
  | c :: rest =>
    if exitOk c then
      let r := runSeq exitOk rest
      (c :: r.1, r.2)
    else ([c], false)

/-- `CommandLint::run` as a function of each external command's exit status. -/
def commandLintRun (exitOk : LintCheck → Bool) : List LintCheck × Bool :=
  runSeq exitOk lintChecks

theorem runSeq_eq (exitOk : LintCheck → Bool) (l : List LintCheck) :
    runSeq exitOk l = (l.takeWhile exitOk ++ (l.dropWhile exitOk).take 1, l.all exitOk) := by
  induction l with
  | nil => rfl
  | cons c rest ih =>
    by_cases h : exitOk c
    · simp [runSeq, h, ih]
    · have h' : exitOk c = false := by
        cases hq : exitOk c
        · rfl
        · exact absurd hq h
      simp [runSeq, h']

-- Helper lemmas for the validator fixpoint claims

theorem ppn_fix (s r : List Char) (h : parse_project_name s = Except.ok r) :
    r ≠ [] ∧ rustTrim r = r := by
  obtain ⟨h1, h2⟩ := parse_project_name_ok s r h
  refine ⟨h2, ?_⟩
  rw [h1, rustTrim_idem]

theorem pga_fix (s r : List Char) (h : parse_github_account s = Except.ok r) :
    r ≠ [] ∧ rustTrim r = r := by
  obtain ⟨h1, h2⟩ := parse_github_account_ok s r h
  refine ⟨h2, ?_⟩
  rw [h1, rustTrim_idem]

theorem gvi_spec {e : Type} (validator : List Char → Except e (List Char))
    (hv : ∀ s r, validator s = Except.ok r → r ≠ [] ∧ rustTrim r = r) :
    ∀ lines v rest, getValidInput validator lines = some (v, rest) →
      v ≠ [] ∧ rustTrim v = v := by
  intro lines
  induction lines with
  | nil =>
    intro v rest h
    simp [getValidInput] at h
  | cons line ls ih =>
    intro v rest h
    simp only [getValidInput] at h
    cases hV : validator (rustTrim line) with
    | ok w =>
      rw [hV] at h
      simp only [Option.some.injEq, Prod.mk.injEq] at h
      obtain ⟨hw, _⟩ := h
      subst hw
      exact hv _ _ hV
    | error ex =>
      rw [hV] at h
      exact ih v rest h

-- Claim theorems

/-- C1: `parse_project_name` succeeds exactly when the input, after
trimming, matches `[A-Za-z_][A-Za-z0-9_-]*`; on success it returns the
trimmed input; on failure the error is the empty-name error, the
starts-with-digit error, the bad-first-character error, or the
invalid-subsequent-character error for the first offending character,
matching the respective violated condition. -/
theorem c1_parse_project_name_correct (name : List Char) :
    (isOkE (parse_project_name name) = validProjectNameSpec (rustTrim name))
    ∧ (∀ r, parse_project_name name = Except.ok r → r = rustTrim name)
    ∧ (rustTrim name = [] → parse_project_name name = Except.error NameErr.emptyName)
    ∧ (∀ c rest, rustTrim name = c :: rest →
        (isAsciiDigitC c = true →
          parse_project_name name = Except.error (NameErr.startsWithDigit c))
        ∧ (isAsciiDigitC c = false → (isAsciiAlphaC c || c == '_') = false →
          parse_project_name name = Except.error (NameErr.badFirstChar c))
        ∧ (∀ x, (isAsciiAlphaC c || c == '_') = true →
            rest.find? badSubChar = some x →
            parse_project_name name = Except.error (NameErr.invalidChar x))) := by
  refine ⟨parseTrimmed_isOk _, ?_, ?_, ?_⟩
  · intro r h
    exact parseTrimmed_ok_eq _ _ h
  · intro h
    unfold parse_project_name
    rw [h]
    rfl
  · intro c rest h
    unfold parse_project_name
    rw [h]
    refine ⟨?_, ?_, ?_⟩
    · intro hd
      simp [parseTrimmed, hd]
    · intro hd hf
      simp [parseTrimmed, hd, hf]
    · intro x hf hfind
      have hd : isAsciiDigitC c = false := by
        cases hq : isAsciiDigitC c
        · rfl
        · have := digit_not_first c hq
          rw [hf] at this
          exact this
      simp [parseTrimmed, hd, hf, hfind]

/-- Witness for C1 at the concrete input "  my-app  ". -/
theorem c1_witness : ("my-app".data : List Char) = rustTrim "  my-app  ".data :=
  (c1_parse_project_name_correct "  my-app  ".data).2.1 "my-app".data (by rfl)

/-- C2: `replace_in_file` returns the read error and writes nothing when
the read fails; when the content does not hold `old` it returns success
without writing and the content is unchanged; otherwise it returns success
and the new content is the old one with every non-overlapping occurrence
of `old` replaced by `new`, written back in full. -/
theorem c2_replace_in_file_correct (file : Option (List Char)) (old new : List Char) :
    (file = none → replace_in_file file old new = ⟨Except.error readErrMsg, none, false⟩)
    ∧ (∀ c, file = some c →
        (replace_in_file file old new).res = Except.ok ()
        ∧ (strContains c old = false →
            (replace_in_file file old new).content = some c
            ∧ (replace_in_file file old new).wrote = false)
        ∧ (strContains c old = true →
            (replace_in_file file old new).content = some (rustReplace c old new)
            ∧ (replace_in_file file old new).wrote = true)) := by
  constructor
  · intro h
    subst h
    rfl
  · intro c h
    subst h
    by_cases hc : strContains c old = true
    · refine ⟨by simp [replace_in_file, hc], ?_, fun _ => by simp [replace_in_file, hc]⟩
      intro h2
      exact absurd hc (by simp [h2])
    · have hc' : strContains c old = false := by
        cases hq : strContains c old
        · rfl
        · exact absurd hq hc
      refine ⟨by simp [replace_in_file, hc'], fun _ => by simp [replace_in_file, hc'], ?_⟩
      intro h2
      exact absurd h2 hc

/-- Witness for C2: a content without the pattern is left unchanged. -/
theorem c2_witness :
    (replace_in_file (some "xy".data) "ab".data "z".data).content = some "xy".data
    ∧ (replace_in_file (some "xy".data) "ab".data "z".data).wrote = false :=
  ((c2_replace_in_file_correct (some "xy".data) "ab".data "z".data).2 "xy".data rfl).2.1
    (by rfl)

/-- C3 counterexample: with old = "ab" and new = "a" — so new does not hold
old as a substring — on the content "abb", one substitution yields "ab"
and a second substitution yields "a": applying substitute twice differs
from applying it once, refuting the claim as stated. -/
theorem c3_counterexample :
    strContains "a".data "ab".data = false
    ∧ (replace_in_file (replace_in_file (some "abb".data) "ab".data "a".data).content
        "ab".data "a".data).content
      ≠ (replace_in_file (some "abb".data) "ab".data "a".data).content := by
  refine ⟨rfl, ?_⟩
  decide

/-- C3 amended: applying substitute twice yields the same content as
applying it once provided the content produced by the first application no
longer holds `old` as a substring; the original side condition — `new`
not holding `old` — is not sufficient. -/
theorem c3_amended_idempotent (s old new : List Char)
    (h : strContains (((replace_in_file (some s) old new).content).getD []) old = false) :
    (replace_in_file (replace_in_file (some s) old new).content old new).content
      = (replace_in_file (some s) old new).content := by
  by_cases hc : strContains s old = true
  · have e1 : (replace_in_file (some s) old new).content = some (rustReplace s old new) := by
      simp [replace_in_file, hc]
    rw [e1] at h
    simp only [Option.getD_some] at h
    rw [e1]
    simp [replace_in_file, h]
  · have hc' : strContains s old = false := by
      cases hq : strContains s old
      · rfl
      · exact absurd hq hc
    have e1 : (replace_in_file (some s) old new).content = some s := by
      simp [replace_in_file, hc']
    rw [e1]
    exact e1

/-- Witness for the amended C3 on a content without the pattern. -/
theorem c3_amended_witness :
    (replace_in_file (replace_in_file (some "hello".data) "ab".data "X".data).content
        "ab".data "X".data).content
      = (replace_in_file (some "hello".data) "ab".data "X".data).content :=
  c3_amended_idempotent "hello".data "ab".data "X".data (by rfl)

/-- C4: when a directory with the requested project name already exists,
the rename step of bootstrap.rs reports the named-collision error and the
directory entries — the template directory and the existing target
included — are unchanged. -/
theorem c4_rename_collision (dirs : List (List Char)) (pn : List Char) (h : pn ∈ dirs) :
    bsUpdateProjectDir dirs pn = (Except.error (errDirExists pn), dirs) := by
  simp [bsUpdateProjectDir, h]

/-- Witness for C4: target "demo" already present next to "template". -/
theorem c4_witness :
    bsUpdateProjectDir [templateName, "demo".data] "demo".data
      = (Except.error (errDirExists "demo".data), [templateName, "demo".data]) :=
  c4_rename_collision [templateName, "demo".data] "demo".data (by decide)

/-- C5: run from a directory lacking the root manifest, the xtask
directory or the template directory, bootstrap reports a precondition
error and returns at once with the workspace untouched — no substitution
and no rename happens. -/
theorem c5_precondition_stops (fs : Fs) (pnOpt gaOpt : Option (List Char))
    (stdin : List (List Char))
    (h : fs.rootCargoToml = none ∨ xtaskName ∉ fs.dirs ∨ templateName ∉ fs.dirs) :
    ∃ e, bootstrap_project fs pnOpt gaOpt stdin = some ([Event.errorMsg e], fs) := by
  by_cases h1 : fs.rootCargoToml = none ∨ xtaskName ∉ fs.dirs
  · exact ⟨"This command must be run from the project root directory".data, by
      simp [bootstrap_project, check_project_root, h1]⟩
  · have h3 : templateName ∉ fs.dirs := by
      rcases h with h | h | h
      · exact absurd (Or.inl h) h1
      · exact absurd (Or.inr h) h1
      · exact h
    exact ⟨"The template directory not found".data, by
      simp [bootstrap_project, check_project_root, h1, h3]⟩

/-- Witness for C5: an empty working directory. -/
theorem c5_witness :
    ∃ e, bootstrap_project ⟨none, none, none, none, none, []⟩ none none []
      = some ([Event.errorMsg e], ⟨none, none, none, none, none, []⟩) :=
  c5_precondition_stops ⟨none, none, none, none, none, []⟩ none none [] (Or.inl rfl)

/-- C6: `execute_bootstrap` always emits exactly the six task lines, with
their fixed labels in the fixed order, regardless of each step's outcome;
and the effects of the lock-file step and of the rename step depend only
on the initial state, so an error in an earlier step does not prevent the
later steps from being attempted. -/
theorem c6_fixed_step_sequence (fs : Fs) (pn ga : List Char) :
    ((execute_bootstrap fs pn ga).1).map Prod.fst
      = [labelRoot, labelTemplateToml, labelReadme, labelSemantic, labelLock, labelRename pn]
    ∧ (execute_bootstrap fs pn ga).2.cargoLock
      = (replace_in_file fs.cargoLock templateName pn).content
    ∧ (execute_bootstrap fs pn ga).2.dirs = (fsRename fs.dirs templateName pn).2 :=
  ⟨rfl, rfl, rfl⟩

/-- C7: the lint subcommand runs clippy, fmt, taplo, typos, hawkeye in
that fixed order; the run succeeds exactly when all five commands exit
successfully, and the executed checks are the successful ones up to and
including the first failing one — none of the later checks runs. -/
theorem c7_lint_fail_fast (exitOk : LintCheck → Bool) :
    (commandLintRun exitOk).1
      = lintChecks.takeWhile exitOk ++ (lintChecks.dropWhile exitOk).take 1
    ∧ (commandLintRun exitOk).2 = lintChecks.all exitOk
    ∧ lintChecks = [LintCheck.clippy, LintCheck.fmt, LintCheck.taplo,
        LintCheck.typos, LintCheck.hawkeye] := by
  refine ⟨?_, ?_, rfl⟩ <;> simp [commandLintRun, runSeq_eq]

/-- C8: every value accepted by `parse_project_name` or
`parse_github_account`, and hence every value `get_valid_input` returns
at either prompt, is non-empty and a fixpoint of whitespace trimming. -/
theorem c8_trim_fixpoint :
    (∀ s r, parse_project_name s = Except.ok r → r ≠ [] ∧ rustTrim r = r)
    ∧ (∀ s r, parse_github_account s = Except.ok r → r ≠ [] ∧ rustTrim r = r)
    ∧ (∀ lines v rest, getValidInput parse_project_name lines = some (v, rest) →
        v ≠ [] ∧ rustTrim v = v)
    ∧ (∀ lines v rest, getValidInput parse_github_account lines = some (v, rest) →
        v ≠ [] ∧ rustTrim v = v) :=
  ⟨ppn_fix, pga_fix, gvi_spec parse_project_name ppn_fix,
    gvi_spec parse_github_account pga_fix⟩

/-- Witness for C8 at a padded project name. -/
theorem c8_witness : ("ab".data : List Char) ≠ [] ∧ rustTrim "ab".data = "ab".data :=
  c8_trim_fixpoint.1 " ab ".data "ab".data (by rfl)

/-- C9: in the root-manifest update the account substitution runs before
the template substitution on the same content (the composition of the two
replacements, in that order); hence on content "/fast" with account
"atemplate" and project name "demo" the final content is "/ademo" — the
account text just inserted was rewritten — and not the "/atemplate" that
substituting each placeholder of the original content simultaneously
would give. -/
theorem c9_sequential_substitution :
    (∀ c pn ga, (update_root_cargo_toml (some c) pn ga).2
        = some (rustReplace (rustReplace c slashFast ('/' :: ga)) templateName pn))
    ∧ (update_root_cargo_toml (some "/fast".data) "demo".data "atemplate".data).2
        = some "/ademo".data
    ∧ rustReplace "/fast".data slashFast ('/' :: "atemplate".data) = "/atemplate".data
    ∧ ("/ademo".data : List Char) ≠ "/atemplate".data := by
  refine ⟨?_, by decide, by decide, by decide⟩
  intro c pn ga
  unfold update_root_cargo_toml
  by_cases h1 : strContains c slashFast = true
  · simp only [replace_in_file, h1, Bool.true_eq_false, if_false]
    by_cases h2 : strContains (rustReplace c slashFast ('/' :: ga)) templateName = true
    · simp [replace_in_file, h2]
    · have h2' : strContains (rustReplace c slashFast ('/' :: ga)) templateName = false := by
        cases hq : strContains (rustReplace c slashFast ('/' :: ga)) templateName
        · rfl
        · exact absurd hq h2
      simp [replace_in_file, h2', rustReplace_of_not_contains _ _ _ h2']
  · have h1' : strContains c slashFast = false := by
      cases hq : strContains c slashFast
      · rfl
      · exact absurd hq h1
    have e1 : rustReplace c slashFast ('/' :: ga) = c :=
      rustReplace_of_not_contains _ _ _ h1'
    simp only [replace_in_file, h1', if_pos rfl]
    rw [e1]
    by_cases h2 : strContains c templateName = true
    · simp [replace_in_file, h2]
    · have h2' : strContains c templateName = false := by
        cases hq : strContains c templateName
        · rfl
        · exact absurd hq h2
      simp [replace_in_file, h2', rustReplace_of_not_contains _ _ _ h2']

/-- C10: when the operator declines the confirmation prompt, bootstrap
prints the cancellation message and returns with the workspace unchanged:
no file content is modified and no directory is renamed. -/
theorem c10_cancel_keeps_state (fs : Fs) (pnOpt gaOpt : Option (List Char))
    (stdin : List (List Char)) (pn ga : List Char) (rest : List (List Char))
    (h1 : check_project_root fs = Except.ok ())
    (h2 : prepare_inputs pnOpt gaOpt stdin = some (pn, ga, rest))
    (h3 : isYes ((rest.head?).getD []) = false) :
    bootstrap_project fs pnOpt gaOpt stdin
      = some ([Event.title, Event.preview, Event.cancelled], fs) := by
  simp [bootstrap_project, h1, h2, h3]

/-- Witness for C10: a complete workspace, both flags given, operator
answers n. -/
theorem c10_witness :
    bootstrap_project ⟨some [], some [], some [], some [], some [], [xtaskName, templateName]⟩
        (some "demo".data) (some "alice".data) ["n".data]
      = some ([Event.title, Event.preview, Event.cancelled],
          ⟨some [], some [], some [], some [], some [], [xtaskName, templateName]⟩) :=
  c10_cancel_keeps_state
    ⟨some [], some [], some [], some [], some [], [xtaskName, templateName]⟩
    (some "demo".data) (some "alice".data) ["n".data]
    "demo".data "alice".data ["n".data] rfl rfl rfl
